import Mathlib

/-!
Verification of the IOTServerClient core logic (Variable Cache, Callback
Dispatcher, Sync Engine) against its specification.

The C++ sources are shallowly embedded as follows:
* Arduino `String` is Lean `String` (a list of characters).
* C `long` / `int` are unbounded `Int` (overflow of `atol` is undefined
  behaviour in C and is not exercised by any property below).
* C `float` is modelled by `FloatVal`: an exact rational for finite
  values — IEEE-754 rounding and the overflow of huge literals to
  `HUGE_VAL` are abstracted away — plus signed infinity and NaN
  constructors.  `String::toFloat` is modelled as the full `strtod`
  subject-sequence grammar: the decimal production, the hexadecimal
  production (`0x` with an optional binary exponent), and the
  case-insensitive `inf`/`infinity` and `nan` productions.
* Callback function pointers (`std::function`) are opaque identifiers
  (`Nat`); a dispatch is recorded as an event carrying the identifier and
  the argument the handler is invoked with, instead of executing the
  handler.
* The ArduinoJson library is external to the repository; its observable
  outcome on a response body is modelled by small inductive types
  (`Response`, `PullResponse`) whose constructors correspond exactly to
  the branches the C++ code distinguishes (`res.length() == 0`,
  `deserializeJson` error, `containsKey`, value coercion).
* Network activity is modelled by passing the transport outcome as an
  explicit argument and recording the requests issued as a trace.
-/

namespace IOT

/-! ## Character and digit utilities (C `isspace` / `isdigit`, decimal digits) -/

/-- C `isspace` in the "C" locale, as used by `atol` / `atof` when Arduino
`String::toInt` / `toFloat` skip leading whitespace. -/
def isCSpace (c : Char) : Bool :=
  c == ' ' || c == '\t' || c == '\n' || c == '\x0b' || c == '\x0c' || c == '\r'

/-- Numeric value of a decimal digit character (ASCII code minus 48). -/
def digitVal (c : Char) : Nat := c.toNat - 48

/-- Value of a big-endian list of decimal digit characters, the way
`atol` / `atof` accumulate digits. -/
def digitsVal (l : List Char) : Nat := l.foldl (fun a c => 10 * a + digitVal c) 0

/-- The ten decimal digit characters. -/
def decDigits : List Char := ['0', '1', '2', '3', '4', '5', '6', '7', '8', '9']

/-- Worker for decimal printing, structurally recursive on a fuel bound
(`fuel > n` suffices, since the printed number shrinks by a factor of ten
each step). -/
def natToDigitsAux : Nat → Nat → List Char
  | 0, _ => []
  | fuel + 1, n =>
      if n < 10 then [Nat.digitChar n]
      else natToDigitsAux fuel (n / 10) ++ [Nat.digitChar (n % 10)]

/-- Big-endian decimal digit characters of a natural number, as produced by
Arduino `String(unsigned long)` style decimal printing. -/
def natToDigits (n : Nat) : List Char := natToDigitsAux (n + 1) n

theorem natToDigitsAux_stable :
    ∀ fuel fuel' n, n < fuel → n < fuel' →
      natToDigitsAux fuel n = natToDigitsAux fuel' n := by
  intro fuel
  induction fuel with
  | zero => intro fuel' n h; omega
  | succ fuel ih =>
    intro fuel' n h h'
    cases fuel' with
    | zero => omega
    | succ fuel' =>
      show natToDigitsAux (fuel + 1) n = natToDigitsAux (fuel' + 1) n
      simp only [natToDigitsAux]
      by_cases h10 : n < 10
      · simp [h10]
      · simp only [h10, if_false]
        have hd : n / 10 < n := Nat.div_lt_self (by omega) (by omega)
        rw [ih fuel' (n / 10) (by omega) (by omega)]

/-- The defining recursion of `natToDigits`, fuel eliminated. -/
theorem natToDigits_eq (n : Nat) :
    natToDigits n =
      if n < 10 then [Nat.digitChar n]
      else natToDigits (n / 10) ++ [Nat.digitChar (n % 10)] := by
  show natToDigitsAux (n + 1) n = _
  simp only [natToDigitsAux]
  by_cases h10 : n < 10
  · simp [h10]
  · simp only [h10, if_false]
    have hd : n / 10 < n := Nat.div_lt_self (by omega) (by omega)
    rw [natToDigitsAux_stable n (n / 10 + 1) (n / 10) (by omega) (by omega)]
    rfl

theorem digitVal_digitChar (d : Nat) (h : d < 10) : digitVal (Nat.digitChar d) = d := by
  interval_cases d <;> rfl

theorem digitChar_mem_decDigits (d : Nat) (h : d < 10) : Nat.digitChar d ∈ decDigits := by
  interval_cases d <;> decide

theorem decDigits_isDigit : ∀ c ∈ decDigits, c.isDigit = true := by decide

theorem decDigits_not_space : ∀ c ∈ decDigits, isCSpace c = false := by decide

theorem decDigits_not_special :
    ∀ c ∈ decDigits, c ≠ '-' ∧ c ≠ '+' ∧ c ≠ '.' := by decide

theorem natToDigits_ne_nil (n : Nat) : natToDigits n ≠ [] := by
  rw [natToDigits_eq]
  split <;> simp

theorem natToDigits_mem (n : Nat) : ∀ c ∈ natToDigits n, c ∈ decDigits := by
  induction n using Nat.strong_induction_on with
  | _ n ih =>
    rw [natToDigits_eq]
    split
    · next h =>
      intro c hc
      simp only [List.mem_singleton] at hc
      subst hc
      exact digitChar_mem_decDigits n h
    · next h =>
      intro c hc
      rcases List.mem_append.1 hc with h1 | h2
      · exact ih (n / 10) (Nat.div_lt_self (by omega) (by omega)) c h1
      · simp only [List.mem_singleton] at h2
        subst h2
        exact digitChar_mem_decDigits (n % 10) (Nat.mod_lt _ (by omega))

theorem foldl_digits_append (a : Nat) (l : List Char) (c : Char) :
    List.foldl (fun a c => 10 * a + digitVal c) a (l ++ [c]) =
      10 * List.foldl (fun a c => 10 * a + digitVal c) a l + digitVal c := by
  rw [List.foldl_append]
  rfl

theorem digitsVal_natToDigits (n : Nat) : digitsVal (natToDigits n) = n := by
  induction n using Nat.strong_induction_on with
  | _ n ih =>
    rw [natToDigits_eq]
    split
    · next h =>
      show 10 * 0 + digitVal (Nat.digitChar n) = n
      rw [digitVal_digitChar n h]
      omega
    · next h =>
      show digitsVal (natToDigits (n / 10) ++ [Nat.digitChar (n % 10)]) = n
      unfold digitsVal
      rw [foldl_digits_append]
      have h1 : digitsVal (natToDigits (n / 10)) = n / 10 :=
        ih (n / 10) (Nat.div_lt_self (by omega) (by omega))
      unfold digitsVal at h1
      rw [h1, digitVal_digitChar (n % 10) (Nat.mod_lt _ (by omega))]
      omega

theorem digitsVal_replicate_zero (k : Nat) (l : List Char) :
    digitsVal (List.replicate k '0' ++ l) = digitsVal l := by
  induction k with
  | zero => rfl
  | succ k ih =>
    simp only [List.replicate_succ, List.cons_append]
    show digitsVal (List.replicate k '0' ++ l) = digitsVal l
    exact ih

theorem natToDigits_length_le (k : Nat) :
    ∀ n, 1 ≤ k → n < 10 ^ k → (natToDigits n).length ≤ k := by
  induction k with
  | zero => intro n h; omega
  | succ k ih =>
    intro n _ hn
    rw [natToDigits_eq]
    split
    · simp only [List.length_cons, List.length_nil]
      omega
    · next h =>
      have hk : 1 ≤ k := by
        rcases Nat.eq_zero_or_pos k with h0 | h0
        · subst h0
          norm_num at hn
          omega
        · omega
      have hdiv : n / 10 < 10 ^ k := by
        have hp : 10 ^ (k + 1) = 10 ^ k * 10 := pow_succ 10 k
        omega
      have hlen := ih (n / 10) hk hdiv
      rw [List.length_append]
      simp only [List.length_cons, List.length_nil]
      omega

/-! ## Arduino `String` conversions (`toInt` = `atol`, `toFloat` = `atof`,
`equalsIgnoreCase`) -/

/-- Leading-sign split shared by `atol` and `atof`: an optional single
`-` or `+` after the whitespace skip. -/
def splitSign (cs : List Char) : Bool × List Char :=
  match cs with
  | [] => (false, [])
  | c :: rest =>
      if c = '-' then (true, rest)
      else if c = '+' then (false, rest)
      else (false, c :: rest)

/-- Arduino `String::toInt`, i.e. C `atol`: skip whitespace, optional sign,
then the longest run of decimal digits (empty run gives 0). -/
def arduinoToInt (s : String) : Int :=
  let cs := s.data.dropWhile isCSpace
  let p := splitSign cs
  let v : Int := (digitsVal (p.2.takeWhile Char.isDigit) : Int)
  if p.1 then -v else v

/-- The optional fraction part of `atof`: a `.` followed by a digit run.
Returns the fraction digits and the remaining input. -/
def splitFrac (cs : List Char) : List Char × List Char :=
  match cs with
  | [] => ([], [])
  | c :: rest =>
      if c = '.' then (rest.takeWhile Char.isDigit, rest.dropWhile Char.isDigit)
      else ([], c :: rest)

/-- The optional exponent part of `atof`: `e`/`E`, optional sign, digit run.
A missing or digitless exponent contributes the factor 1 (exponent 0),
which agrees with `strtod` not consuming it. -/
def parseExpPart (cs : List Char) : Int :=
  match cs with
  | [] => 0
  | c :: rest =>
      if c = 'e' ∨ c = 'E' then
        match rest with
        | [] => 0
        | d :: rest2 =>
            if d = '-' then -(digitsVal (rest2.takeWhile Char.isDigit) : Int)
            else if d = '+' then (digitsVal (rest2.takeWhile Char.isDigit) : Int)
            else (digitsVal ((d :: rest2).takeWhile Char.isDigit) : Int)
      else 0

/-- C `tolower` in the "C" locale (ASCII): map `A`–`Z` to `a`–`z`. -/
def asciiLower (c : Char) : Char :=
  if 'A' ≤ c ∧ c ≤ 'Z' then Char.ofNat (c.toNat + 32) else c

/-- ASCII-lowercased copy of a string. -/
def lowerString (s : String) : String := ⟨s.data.map asciiLower⟩

/-- The result of C `strtod` (hence of Arduino `String::toFloat`): a
finite value — kept exact in `Rat`, abstracting IEEE rounding and the
overflow of huge literals to `HUGE_VAL` — or one of the special values
produced by the `INF`/`INFINITY` and `NAN` productions, with their sign.
The payload of `nan(...)` does not affect the value and is not recorded. -/
inductive FloatVal
  | finite (q : Rat)
  | inf (neg : Bool)
  | nan (neg : Bool)
deriving DecidableEq, Repr

/-- C `isxdigit`: a hexadecimal digit character. -/
def isHexDigitC (c : Char) : Bool :=
  c.isDigit || ('a' ≤ c && c ≤ 'f') || ('A' ≤ c && c ≤ 'F')

/-- Numeric value of a hexadecimal digit character. -/
def hexDigitVal (c : Char) : Nat :=
  if c.isDigit then c.toNat - 48
  else if 'a' ≤ c && c ≤ 'f' then c.toNat - 87
  else c.toNat - 55

/-- Value of a big-endian list of hexadecimal digit characters. -/
def hexVal (l : List Char) : Nat := l.foldl (fun a c => 16 * a + hexDigitVal c) 0

/-- Case-insensitive prefix test (ASCII, as `strtod` matches `INF`/`NAN`). -/
def matchesCI (pat : String) (cs : List Char) : Bool :=
  (cs.take pat.data.length).map asciiLower == pat.data

/-- Whether the input (after whitespace and sign) opens `strtod`'s
hexadecimal production: `0x`/`0X` followed by a hex digit, directly or
after a period.  When this fails, `strtod` falls back to the decimal
production (which then consumes the leading `0`). -/
def isHexStart (cs : List Char) : Bool :=
  match cs with
  | c0 :: c1 :: rest =>
      (c0 == '0') && (c1 == 'x' || c1 == 'X') &&
        (match rest with
         | [] => false
         | c :: rest2 =>
             isHexDigitC c ||
               ((c == '.') && (match rest2 with
                 | [] => false
                 | d :: _ => isHexDigitC d)))
  | _ => false

/-- The optional binary exponent of a hexadecimal float: `p`/`P`, optional
sign, decimal digit run.  A missing or digitless exponent contributes the
factor 1, matching `strtod` not consuming it. -/
def parseHexExp (cs : List Char) : Int :=
  match cs with
  | [] => 0
  | c :: rest =>
      if c = 'p' ∨ c = 'P' then
        match rest with
        | [] => 0
        | d :: rest2 =>
            if d = '-' then -(digitsVal (rest2.takeWhile Char.isDigit) : Int)
            else if d = '+' then (digitsVal (rest2.takeWhile Char.isDigit) : Int)
            else (digitsVal ((d :: rest2).takeWhile Char.isDigit) : Int)
      else 0

/-- `strtod`'s hexadecimal production, applied after the `0x`/`0X` prefix:
hex digits, optional fraction, optional binary exponent, exact in `Rat`. -/
def parseHex (neg : Bool) (cs : List Char) : FloatVal :=
  let ip := cs.takeWhile isHexDigitC
  let cs2 := cs.dropWhile isHexDigitC
  let fq :=
    match cs2 with
    | [] => ([], [])
    | c :: rest =>
        if c = '.' then (rest.takeWhile isHexDigitC, rest.dropWhile isHexDigitC)
        else ([], c :: rest)
  let mant : Rat := (hexVal ip : Rat) + (hexVal fq.1 : Rat) / (16 : Rat) ^ fq.1.length
  let v := mant * (2 : Rat) ^ parseHexExp fq.2
  FloatVal.finite (if neg then -v else v)

/-- `strtod`'s decimal production (after whitespace and sign): integer
digits, optional fraction, optional decimal exponent, exact in `Rat`.  If
neither integer nor fraction digits are present, no conversion is
performed and the result is 0. -/
def parseDecimal (neg : Bool) (cs1 : List Char) : FloatVal :=
  let ip := cs1.takeWhile Char.isDigit
  let cs2 := cs1.dropWhile Char.isDigit
  let q := splitFrac cs2
  if ip = [] ∧ q.1 = [] then FloatVal.finite 0
  else
    let mant : Rat := (digitsVal ip : Rat) + (digitsVal q.1 : Rat) / (10 : Rat) ^ q.1.length
    let v := mant * (10 : Rat) ^ parseExpPart q.2
    FloatVal.finite (if neg then -v else v)

/-- Arduino `String::toFloat`, i.e. C `atof` / `strtod`: skip whitespace
and an optional sign, then match, in order, the infinity production
(case-insensitive `inf`, optionally continuing as `infinity`), the NaN
production (case-insensitive `nan`, optional payload), the hexadecimal
production (`0x` with hex digits), or the decimal production. -/
def arduinoToFloat (s : String) : FloatVal :=
  let cs := s.data.dropWhile isCSpace
  let p := splitSign cs
  if matchesCI "inf" p.2 then FloatVal.inf p.1
  else if matchesCI "nan" p.2 then FloatVal.nan p.1
  else if isHexStart p.2 then parseHex p.1 (p.2.drop 2)
  else parseDecimal p.1 p.2

/-- The sign `strtod` consumed on this input (after whitespace). -/
def strtodSign (s : String) : Bool := (splitSign (s.data.dropWhile isCSpace)).1

/-- Whether this input matches `strtod`'s infinity production. -/
def strtodInf (s : String) : Bool :=
  matchesCI "inf" (splitSign (s.data.dropWhile isCSpace)).2

/-- Whether this input matches `strtod`'s NaN production. -/
def strtodNaN (s : String) : Bool :=
  matchesCI "nan" (splitSign (s.data.dropWhile isCSpace)).2

/-- Whether this input matches either special (non-finite) production. -/
def strtodSpecial (s : String) : Bool := strtodInf s || strtodNaN s

/-- Arduino `String::equalsIgnoreCase` (ASCII case fold, as in the C
`strcasecmp` it wraps). -/
def equalsIgnoreCase (a b : String) : Bool := lowerString a == lowerString b

/-- The boolean reading used both by `virtualReadBool` and by the
boolean-callback dispatch in `processUpdate`:
`value.equalsIgnoreCase("true") || value == "1"`. -/
def arduinoToBool (v : String) : Bool := equalsIgnoreCase v "true" || v == "1"

/-! ## Canonical textual formatting used by `virtualWrite` -/

/-- Arduino `String(unsigned long)` decimal printing. -/
def natToString (n : Nat) : String := ⟨natToDigits n⟩

/-- Arduino `String(int value)`: decimal, `-` prefix when negative. -/
def intToString (i : Int) : String :=
  if i < 0 then ⟨'-' :: natToDigits i.natAbs⟩ else ⟨natToDigits i.toNat⟩

/-- Absolute value on `Rat` written with the branch the printing code uses. -/
def ratAbs (q : Rat) : Rat := if q < 0 then -q else q

/-- The integer `round(|q| * 10^6)` (round half up) that determines all six
printed decimal places of `String(value, 6)`. -/
def round6Num (q : Rat) : Nat := (ratAbs q * 1000000 + 1 / 2).floor.toNat

/-- Pad a digit run on the left with `'0'` to six characters
(the fraction part of `String(value, 6)` always prints six digits). -/
def padZeros (l : List Char) : List Char := List.replicate (6 - l.length) '0' ++ l

/-- Arduino `String(float value, 6)`: sign, integer part, `.`, exactly six
fraction digits, rounding half up (exact-rational model of `printFloat`). -/
def fmtFloat (q : Rat) : String :=
  let m := round6Num q
  ⟨(if q < 0 then ['-'] else []) ++
    natToDigits (m / 1000000) ++ '.' :: padZeros (natToDigits (m % 1000000))⟩

/-- The value a cached canonical float text reads back as: `q` rounded
half-up to six decimal places. -/
def round6 (q : Rat) : Rat :=
  (if q < 0 then -1 else 1) * ((round6Num q : Rat) / 1000000)

/-! ## Data model (`IOTServerClient.h`) -/

/-- `enum VarType { INT_TYPE, FLOAT_TYPE, STRING_TYPE, BOOLEAN_TYPE }`. -/
inductive VarType
  | INT_TYPE
  | FLOAT_TYPE
  | STRING_TYPE
  | BOOLEAN_TYPE
deriving DecidableEq, Repr

/-- `struct Variable { String name; VarType type; String value; }`. -/
structure Variable where
  name : String
  type : VarType
  value : String
deriving DecidableEq, Repr

/-- `struct CallbackEntry`: a name, a recorded type, and four optional
typed handler slots.  A handler (`std::function`) is modelled as an opaque
identifier; an unset slot (empty `std::function`, false in a boolean
context) is `none`. -/
structure CallbackEntry where
  name : String
  type : VarType
  intCb : Option Nat
  floatCb : Option Nat
  boolCb : Option Nat
  stringCb : Option Nat
deriving DecidableEq, Repr

/-- A recorded handler invocation: which handler identifier was called and
with which (converted) argument. -/
inductive CbEvent
  | intCall (cb : Nat) (arg : Int)
  | floatCall (cb : Nat) (arg : FloatVal)
  | boolCall (cb : Nat) (arg : Bool)
  | stringCall (cb : Nat) (arg : String)
deriving DecidableEq, Repr

/-- The mutable state of an `IOTServerClient` instance that the verified
operations touch: the variable cache, the callback registry, and the
heartbeat timer fields. -/
structure ClientState where
  cache : List Variable
  callbacks : List CallbackEntry
  lastHeartbeat : Nat
  heartbeatInterval : Nat
deriving DecidableEq, Repr

/-! ## Type-label mapping -/

/-- `IOTServerClient::varTypeToString` (the `default` arm of the C++
`switch` is unreachable over the four-constructor enum). -/
def varTypeToString : VarType → String
  | VarType.INT_TYPE => "int"
  | VarType.FLOAT_TYPE => "float"
  | VarType.BOOLEAN_TYPE => "bool"
  | VarType.STRING_TYPE => "string"

/-- `IOTServerClient::stringToVarType`: case-insensitive label match with
`STRING_TYPE` as the fallback. -/
def stringToVarType (s : String) : VarType :=
  if equalsIgnoreCase s "int" then VarType.INT_TYPE
  else if equalsIgnoreCase s "float" then VarType.FLOAT_TYPE
  else if equalsIgnoreCase s "bool" || equalsIgnoreCase s "boolean" then VarType.BOOLEAN_TYPE
  else VarType.STRING_TYPE

/-! ## Callback dispatcher (`processUpdate`, `onWrite*`) -/

/-- The body of the `processUpdate` loop for one matching entry: the
`if/else if` chain on `(type == X_TYPE && cb.xCb)` — note that it tests the
slot for the *incoming* type, never the entry's recorded `type` field. -/
def dispatchEntry (value : String) (t : VarType) (e : CallbackEntry) : List CbEvent :=
  match t with
  | VarType.INT_TYPE =>
      match e.intCb with
      | some f => [CbEvent.intCall f (arduinoToInt value)]
      | none => []
  | VarType.FLOAT_TYPE =>
      match e.floatCb with
      | some f => [CbEvent.floatCall f (arduinoToFloat value)]
      | none => []
  | VarType.BOOLEAN_TYPE =>
      match e.boolCb with
      | some f => [CbEvent.boolCall f (arduinoToBool value)]
      | none => []
  | VarType.STRING_TYPE =>
      match e.stringCb with
      | some f => [CbEvent.stringCall f value]
      | none => []

/-- `IOTServerClient::processUpdate`: iterate over all callback entries and
dispatch from every entry whose name matches. -/
def processUpdate (name value : String) (t : VarType) : List CallbackEntry → List CbEvent
  | [] => []
  | e :: rest =>
      (if e.name = name then dispatchEntry value t e else []) ++
        processUpdate name value t rest

/-- `IOTServerClient::onWriteInt`: mutate the `intCb` slot of the first
entry with this name, or append a fresh `INT_TYPE` entry. -/
def onWriteInt (name : String) (cb : Nat) : List CallbackEntry → List CallbackEntry
  | [] => [⟨name, VarType.INT_TYPE, some cb, none, none, none⟩]
  | e :: rest =>
      if e.name = name then ⟨e.name, e.type, some cb, e.floatCb, e.boolCb, e.stringCb⟩ :: rest
      else e :: onWriteInt name cb rest

/-- `IOTServerClient::onWriteFloat`. -/
def onWriteFloat (name : String) (cb : Nat) : List CallbackEntry → List CallbackEntry
  | [] => [⟨name, VarType.FLOAT_TYPE, none, some cb, none, none⟩]
  | e :: rest =>
      if e.name = name then ⟨e.name, e.type, e.intCb, some cb, e.boolCb, e.stringCb⟩ :: rest
      else e :: onWriteFloat name cb rest

/-- `IOTServerClient::onWriteBool`. -/
def onWriteBool (name : String) (cb : Nat) : List CallbackEntry → List CallbackEntry
  | [] => [⟨name, VarType.BOOLEAN_TYPE, none, none, some cb, none⟩]
  | e :: rest =>
      if e.name = name then ⟨e.name, e.type, e.intCb, e.floatCb, some cb, e.stringCb⟩ :: rest
      else e :: onWriteBool name cb rest

/-- `IOTServerClient::onWriteString`. -/
def onWriteString (name : String) (cb : Nat) : List CallbackEntry → List CallbackEntry
  | [] => [⟨name, VarType.STRING_TYPE, none, none, none, some cb⟩]
  | e :: rest =>
      if e.name = name then ⟨e.name, e.type, e.intCb, e.floatCb, e.boolCb, some cb⟩ :: rest
      else e :: onWriteString name cb rest

/-! ## Variable cache (`findInCache`, `updateCache`, `virtualRead*`) -/

/-- `IOTServerClient::findInCache`: first entry with the given name. -/
def findInCache (name : String) : List Variable → Option Variable
  | [] => none
  | v :: rest => if v.name = name then some v else findInCache name rest

/-- The cache mutation inside `IOTServerClient::updateCache`: overwrite
value and type of the first entry with this name, or `push_back` a fresh
entry at the end. -/
def updateCacheList (name value : String) (t : VarType) : List Variable → List Variable
  | [] => [⟨name, t, value⟩]
  | v :: rest =>
      if v.name = name then ⟨v.name, t, value⟩ :: rest
      else v :: updateCacheList name value t rest

/-- `IOTServerClient::updateCache`: write the cache, then call
`processUpdate` with the same `(name, value, type)`.  Returns the new state
and the handler invocations the update triggered. -/
def updateCache (name value : String) (t : VarType) (st : ClientState) :
    ClientState × List CbEvent :=
  (⟨updateCacheList name value t st.cache, st.callbacks,
      st.lastHeartbeat, st.heartbeatInterval⟩,
   processUpdate name value t st.callbacks)

/-- `IOTServerClient::virtualReadInt`: 0 when absent, else `value.toInt()`. -/
def virtualReadInt (name : String) (st : ClientState) : Int :=
  match findInCache name st.cache with
  | none => 0
  | some v => arduinoToInt v.value

/-- `IOTServerClient::virtualReadFloat`: 0.0 when absent, else
`value.toFloat()`. -/
def virtualReadFloat (name : String) (st : ClientState) : FloatVal :=
  match findInCache name st.cache with
  | none => FloatVal.finite 0
  | some v => arduinoToFloat v.value

/-- `IOTServerClient::virtualReadBool`: false when absent, else
`value.equalsIgnoreCase("true") || value == "1"`. -/
def virtualReadBool (name : String) (st : ClientState) : Bool :=
  match findInCache name st.cache with
  | none => false
  | some v => arduinoToBool v.value

/-- `IOTServerClient::virtualReadString`: empty string when absent, else the
stored text verbatim. -/
def virtualReadString (name : String) (st : ClientState) : String :=
  match findInCache name st.cache with
  | none => ""
  | some v => v.value

/-! ## Request layer (`makeRequest`) and response outcomes -/

/-- Trace of one `makeRequest` call: the returned body, the number of
transport invocations actually performed (HTTP verb sent), and the
`delay(...)` waits in chronological order. -/
structure RequestTrace where
  result : String
  calls : Nat
  delays : List Nat
deriving DecidableEq, Repr

/-- The `while (attempts <= retries)` loop of `IOTServerClient::makeRequest`.
`beginOk k` tells whether `http.begin` succeeds on iteration `k` (that
branch retries after a fixed `delay(100)` without a transport call);
`responses k` is the body the transport returns on iteration `k` (empty for
a failed or non-2xx exchange).  After an empty response the code waits
`delay(100 * attempts)` with `attempts` already incremented.
The loop guard `attempts <= retries` is expressed structurally through the
number `rem = retries + 1 - attempts` of iterations still allowed: `rem = 0`
is the loop exit returning the empty string. -/
def makeRequestGo (beginOk : Nat → Bool) (responses : Nat → String) :
    Nat → Nat → RequestTrace
  | 0, _ => ⟨"", 0, []⟩
  | rem + 1, attempts =>
      if beginOk attempts then
        let resp := responses attempts
        if resp.length > 0 then ⟨resp, 1, []⟩
        else
          let t := makeRequestGo beginOk responses rem (attempts + 1)
          ⟨t.result, t.calls + 1, 100 * (attempts + 1) :: t.delays⟩
      else
        let t := makeRequestGo beginOk responses rem (attempts + 1)
        ⟨t.result, t.calls, 100 :: t.delays⟩

/-- `IOTServerClient::makeRequest`: short-circuit to the empty result when
not connected, otherwise run the retry loop starting at attempt 0 with
`retries + 1` iterations allowed. -/
def makeRequest (connected : Bool) (beginOk : Nat → Bool)
    (responses : Nat → String) (retries : Nat) : RequestTrace :=
  if connected then makeRequestGo beginOk responses (retries + 1) 0 else ⟨"", 0, []⟩

/-- Outcome of a response body as observed through ArduinoJson by
`sendHeartbeat` / `sendVariable`:
* `empty` — `makeRequest` returned the empty string (`res.length() == 0`);
* `unparseable` — a non-empty body on which `deserializeJson` reports an
  error (the document is then empty, so `containsKey` is false);
* `parsed k` — a non-empty body parsed successfully; `k` describes the
  `success` key: `none` if absent, `some none` if present with a non-boolean
  value (the `| false` default then applies), `some (some b)` if present
  with boolean value `b`. -/
inductive Response
  | empty
  | unparseable
  | parsed (successKey : Option (Option Bool))
deriving DecidableEq, Repr

/-- `IOTServerClient::sendHeartbeat`, as a function of the response outcome
of its `makeRequest("/api/device/heartbeat", "POST", payload, 1)` call:
empty response returns false; a `deserializeJson` error returns false
(line `if (deserializeJson(rd, res)) return false;`); with `success`
present it returns `rd["success"] | false`; otherwise true. -/
def sendHeartbeat (r : Response) : Bool :=
  match r with
  | Response.empty => false
  | Response.unparseable => false
  | Response.parsed none => true
  | Response.parsed (some none) => false
  | Response.parsed (some (some b)) => b

/-- `IOTServerClient::sendVariable`, as a function of the response outcome
of its `makeRequest("/api/device/variable", "POST", payload, 1)` call.
The source tests `if (!deserializeJson(rd, res)) return true;`, i.e. it
returns true as soon as the body parses; and when the body does not parse
the document is empty, `containsKey("success")` is false and the final
`return true;` is reached.  Hence every non-empty response yields true. -/
def sendVariable (r : Response) : Bool :=
  match r with
  | Response.empty => false
  | Response.unparseable => true
  | Response.parsed _ => true

/-! ## Writes (`virtualWrite` overloads) -/

/-- `virtualWrite(name, int)`: format with `String(value)`, send, and update
the cache (which dispatches) only when the send succeeded. -/
def virtualWriteInt (name : String) (value : Int) (r : Response) (st : ClientState) :
    Bool × ClientState × List CbEvent :=
  let val := intToString value
  if sendVariable r then
    let u := updateCache name val VarType.INT_TYPE st
    (true, u.1, u.2)
  else (false, st, [])

/-- `virtualWrite(name, float)`: format with `String(value, 6)`. -/
def virtualWriteFloat (name : String) (value : Rat) (r : Response) (st : ClientState) :
    Bool × ClientState × List CbEvent :=
  let val := fmtFloat value
  if sendVariable r then
    let u := updateCache name val VarType.FLOAT_TYPE st
    (true, u.1, u.2)
  else (false, st, [])

/-- `virtualWrite(name, bool)`: format as `"true"` / `"false"`. -/
def virtualWriteBool (name : String) (value : Bool) (r : Response) (st : ClientState) :
    Bool × ClientState × List CbEvent :=
  let val := if value then "true" else "false"
  if sendVariable r then
    let u := updateCache name val VarType.BOOLEAN_TYPE st
    (true, u.1, u.2)
  else (false, st, [])

/-- `virtualWrite(name, String)`: the text is sent and cached verbatim. -/
def virtualWriteString (name value : String) (r : Response) (st : ClientState) :
    Bool × ClientState × List CbEvent :=
  if sendVariable r then
    let u := updateCache name value VarType.STRING_TYPE st
    (true, u.1, u.2)
  else (false, st, [])

/-! ## Pull (`syncNow`) and the periodic loop -/

/-- One element of the pulled `variables` array after ArduinoJson string
coercion of its `name` / `type` / `value` members. -/
structure PullEntry where
  name : String
  typeS : String
  value : String
deriving DecidableEq, Repr

/-- Outcome of the pull response body as observed by `syncNow`:
* `empty` — `makeRequest` returned the empty string;
* `malformed` — non-empty body on which `deserializeJson` reports an error
  (this is the only way an unparseable `(name, type, value)` triple can
  manifest: a triple that is not syntactically valid JSON makes the whole
  document fail to parse);
* `noVariablesKey` — parsed body without a `variables` key;
* `vars es` — parsed body whose `variables` array coerces to the entries
  `es`. -/
inductive PullResponse
  | empty
  | malformed
  | noVariablesKey
  | vars (entries : List PullEntry)
deriving DecidableEq, Repr

/-- The apply loop of `syncNow`: each pulled entry is applied in order with
`updateCache(name, val, stringToVarType(typeS))`, accumulating the
dispatched events. -/
def applyEntries : List PullEntry → ClientState → ClientState × List CbEvent
  | [], st => (st, [])
  | e :: rest, st =>
      let u := updateCache e.name e.value (stringToVarType e.typeS) st
      let r := applyEntries rest u.1
      (r.1, u.2 ++ r.2)

/-- `IOTServerClient::syncNow`, as a function of the response outcome of its
`makeRequest("/api/device/variables", "GET", "", 1)` call: empty body,
parse error, or missing `variables` key return false with the state
untouched; otherwise every pulled entry is applied. -/
def syncNow (r : PullResponse) (st : ClientState) : Bool × ClientState × List CbEvent :=
  match r with
  | PullResponse.empty => (false, st, [])
  | PullResponse.malformed => (false, st, [])
  | PullResponse.noVariablesKey => (false, st, [])
  | PullResponse.vars es =>
      let a := applyEntries es st
      (true, a.1, a.2)

/-- A network operation issued by the periodic loop. -/
inductive NetAction
  | heartbeat
  | pull
deriving DecidableEq, Repr

/-- `2^32`, the modulus of Arduino `unsigned long` (`millis()`) arithmetic. -/
def UINT32_MOD : Nat := 4294967296

/-- C unsigned 32-bit subtraction `a - b`, used by
`now - lastHeartbeat` in `loop`. -/
def u32sub (a b : Nat) : Nat :=
  (a % UINT32_MOD + (UINT32_MOD - b % UINT32_MOD)) % UINT32_MOD

/-- `IOTServerClient::loop`: when the heartbeat interval has elapsed it
calls `sendHeartbeat()` (return value discarded), then `syncNow()`, then
sets `lastHeartbeat = now`; otherwise it does nothing.  The transport
outcomes of the two requests are passed in as `hb` and `p`; the returned
trace lists the network operations issued and the handler invocations the
pull triggered. -/
def loop (now : Nat) (hb : Response) (p : PullResponse) (st : ClientState) :
    ClientState × List NetAction × List CbEvent :=
  if u32sub now st.lastHeartbeat ≥ st.heartbeatInterval then
    let _hbOk := sendHeartbeat hb
    let r := syncNow p st
    (⟨r.2.1.cache, r.2.1.callbacks, now, r.2.1.heartbeatInterval⟩,
     [NetAction.heartbeat, NetAction.pull], r.2.2)
  else (st, [], [])

/-! ## List scanning helper lemmas -/

theorem takeWhile_eq_self {p : Char → Bool} :
    ∀ {l : List Char}, (∀ c ∈ l, p c = true) → l.takeWhile p = l := by
  intro l h
  induction l with
  | nil => rfl
  | cons c rest ih =>
    have hc : p c = true := h c (List.mem_cons_self c rest)
    have hr := ih fun x hx => h x (List.mem_cons_of_mem c hx)
    simp [List.takeWhile_cons, hc, hr]

theorem dropWhile_eq_nil {p : Char → Bool} :
    ∀ {l : List Char}, (∀ c ∈ l, p c = true) → l.dropWhile p = [] := by
  intro l h
  induction l with
  | nil => rfl
  | cons c rest ih =>
    have hc : p c = true := h c (List.mem_cons_self c rest)
    simp only [List.dropWhile_cons, hc, if_true]
    exact ih fun x hx => h x (List.mem_cons_of_mem c hx)

theorem takeWhile_eq_nil {p : Char → Bool} :
    ∀ {l : List Char}, (∀ c ∈ l, p c = false) → l.takeWhile p = [] := by
  intro l h
  cases l with
  | nil => rfl
  | cons c rest =>
    have hc : p c = false := h c (List.mem_cons_self c rest)
    simp [List.takeWhile_cons, hc]

theorem dropWhile_cons_neg {p : Char → Bool} {c : Char} {l : List Char}
    (h : p c = false) : (c :: l).dropWhile p = c :: l := by
  simp [List.dropWhile_cons, h]

theorem mem_of_mem_dropWhile {p : Char → Bool} :
    ∀ {l : List Char} {c : Char}, c ∈ l.dropWhile p → c ∈ l := by
  intro l
  induction l with
  | nil => intro c h; exact absurd h (by simp)
  | cons d rest ih =>
    intro c h
    by_cases hd : p d
    · rw [List.dropWhile_cons, if_pos hd] at h
      exact List.mem_cons_of_mem d (ih h)
    · rw [List.dropWhile_cons, if_neg hd] at h
      exact h

/-! ## Cache lemmas -/

/-- The cache invariant: pairwise distinct variable names. -/
def cacheWF (c : List Variable) : Prop := c.Pairwise fun a b => a.name ≠ b.name

/-- `updateCache` is atomic from a reader's point of view: after the write,
the lookup of the written name yields exactly the new pair of type and
value (both fields together). -/
theorem findInCache_updateCacheList (name value : String) (t : VarType) :
    ∀ c : List Variable, findInCache name (updateCacheList name value t c) = some ⟨name, t, value⟩ := by
  intro c
  induction c with
  | nil => simp [updateCacheList, findInCache]
  | cons v rest ih =>
    by_cases hv : v.name = name
    · simp [updateCacheList, hv, findInCache]
    · simp only [updateCacheList, hv, if_false]
      simp [findInCache, hv, ih]

/-- Names present after an update: the updated name or a name already
present. -/
theorem mem_updateCacheList_name (name value : String) (t : VarType) :
    ∀ (c : List Variable) (x : Variable), x ∈ updateCacheList name value t c →
      x.name = name ∨ ∃ y ∈ c, x.name = y.name := by
  intro c
  induction c with
  | nil =>
    intro x hx
    simp only [updateCacheList, List.mem_singleton] at hx
    subst hx
    exact Or.inl rfl
  | cons v rest ih =>
    intro x hx
    by_cases hv : v.name = name
    · rw [updateCacheList, if_pos hv] at hx
      rcases List.mem_cons.1 hx with h1 | h2
      · subst h1; exact Or.inl hv
      · exact Or.inr ⟨x, List.mem_cons_of_mem v h2, rfl⟩
    · rw [updateCacheList, if_neg hv] at hx
      rcases List.mem_cons.1 hx with h1 | h2
      · subst h1; exact Or.inr ⟨x, List.mem_cons_self x rest, rfl⟩
      · rcases ih x h2 with h3 | ⟨y, hy, h4⟩
        · exact Or.inl h3
        · exact Or.inr ⟨y, List.mem_cons_of_mem v hy, h4⟩

/-- `updateCacheList` preserves the at-most-one-entry-per-name invariant. -/
theorem cacheWF_updateCacheList (name value : String) (t : VarType) :
    ∀ c : List Variable, cacheWF c → cacheWF (updateCacheList name value t c) := by
  intro c
  induction c with
  | nil =>
    intro _
    simp [updateCacheList, cacheWF]
  | cons v rest ih =>
    intro h
    rcases List.pairwise_cons.1 h with ⟨hv, hrest⟩
    by_cases hn : v.name = name
    · rw [updateCacheList, if_pos hn]
      refine List.pairwise_cons.2 ⟨?_, hrest⟩
      intro y hy
      show v.name ≠ y.name
      exact hv y hy
    · rw [updateCacheList, if_neg hn]
      refine List.pairwise_cons.2 ⟨?_, ih hrest⟩
      intro y hy
      rcases mem_updateCacheList_name name value t rest y hy with h1 | ⟨z, hz, h2⟩
      · rw [h1]
        exact fun hcon => hn hcon
      · rw [h2]
        exact hv z hz

/-! ## Dispatcher lemmas -/

/-- The callback-registry invariant: pairwise distinct entry names
(at most one `CallbackEntry` per name). -/
def cbsWF (cbs : List CallbackEntry) : Prop := cbs.Pairwise fun a b => a.name ≠ b.name

/-- The single-slot discipline that holds when, for each name, only
registration calls of one type have ever been used: any non-`none` slot is
the one matching the entry's recorded `type`. -/
def entryTypeConsistent (e : CallbackEntry) : Prop :=
  (e.intCb.isSome → e.type = VarType.INT_TYPE) ∧
  (e.floatCb.isSome → e.type = VarType.FLOAT_TYPE) ∧
  (e.boolCb.isSome → e.type = VarType.BOOLEAN_TYPE) ∧
  (e.stringCb.isSome → e.type = VarType.STRING_TYPE)

instance (e : CallbackEntry) : Decidable (entryTypeConsistent e) := by
  unfold entryTypeConsistent
  infer_instance

theorem processUpdate_eq_nil_of_nomatch (name value : String) (t : VarType) :
    ∀ cbs : List CallbackEntry, (∀ e ∈ cbs, e.name ≠ name) →
      processUpdate name value t cbs = [] := by
  intro cbs
  induction cbs with
  | nil => intro _; rfl
  | cons e rest ih =>
    intro h
    have he : e.name ≠ name := h e (List.mem_cons_self e rest)
    show (if e.name = name then dispatchEntry value t e else []) ++ _ = []
    rw [if_neg he, List.nil_append]
    exact ih fun x hx => h x (List.mem_cons_of_mem e hx)

/-- An entry obeying the single-slot discipline produces no event for an
update whose incoming type differs from its recorded type. -/
theorem dispatchEntry_eq_nil_of_mismatch (value : String) (t : VarType)
    (e : CallbackEntry) (hc : entryTypeConsistent e) (ht : e.type ≠ t) :
    dispatchEntry value t e = [] := by
  rcases hc with ⟨h1, h2, h3, h4⟩
  cases t with
  | INT_TYPE =>
    show (match e.intCb with
          | some f => [CbEvent.intCall f (arduinoToInt value)]
          | none => []) = []
    cases hi : e.intCb with
    | none => rfl
    | some f => exact absurd (h1 (by simp [hi])) ht
  | FLOAT_TYPE =>
    show (match e.floatCb with
          | some f => [CbEvent.floatCall f (arduinoToFloat value)]
          | none => []) = []
    cases hi : e.floatCb with
    | none => rfl
    | some f => exact absurd (h2 (by simp [hi])) ht
  | BOOLEAN_TYPE =>
    show (match e.boolCb with
          | some f => [CbEvent.boolCall f (arduinoToBool value)]
          | none => []) = []
    cases hi : e.boolCb with
    | none => rfl
    | some f => exact absurd (h3 (by simp [hi])) ht
  | STRING_TYPE =>
    show (match e.stringCb with
          | some f => [CbEvent.stringCall f value]
          | none => []) = []
    cases hi : e.stringCb with
    | none => rfl
    | some f => exact absurd (h4 (by simp [hi])) ht

/-- Names present after an `onWriteInt` registration. -/
theorem mem_onWriteInt_name (name : String) (cb : Nat) :
    ∀ (cbs : List CallbackEntry) (x : CallbackEntry), x ∈ onWriteInt name cb cbs →
      x.name = name ∨ ∃ y ∈ cbs, x.name = y.name := by
  intro cbs
  induction cbs with
  | nil =>
    intro x hx
    simp only [onWriteInt, List.mem_singleton] at hx
    subst hx
    exact Or.inl rfl
  | cons e rest ih =>
    intro x hx
    by_cases he : e.name = name
    · rw [onWriteInt, if_pos he] at hx
      rcases List.mem_cons.1 hx with h1 | h2
      · subst h1; exact Or.inl he
      · exact Or.inr ⟨x, List.mem_cons_of_mem e h2, rfl⟩
    · rw [onWriteInt, if_neg he] at hx
      rcases List.mem_cons.1 hx with h1 | h2
      · subst h1; exact Or.inr ⟨x, List.mem_cons_self x rest, rfl⟩
      · rcases ih x h2 with h3 | ⟨y, hy, h4⟩
        · exact Or.inl h3
        · exact Or.inr ⟨y, List.mem_cons_of_mem e hy, h4⟩

/-- `onWriteInt` preserves the at-most-one-entry-per-name invariant. -/
theorem cbsWF_onWriteInt (name : String) (cb : Nat) :
    ∀ cbs : List CallbackEntry, cbsWF cbs → cbsWF (onWriteInt name cb cbs) := by
  intro cbs
  induction cbs with
  | nil =>
    intro _
    simp [onWriteInt, cbsWF]
  | cons e rest ih =>
    intro h
    rcases List.pairwise_cons.1 h with ⟨he, hrest⟩
    by_cases hn : e.name = name
    · rw [onWriteInt, if_pos hn]
      refine List.pairwise_cons.2 ⟨?_, hrest⟩
      intro y hy
      show e.name ≠ y.name
      exact he y hy
    · rw [onWriteInt, if_neg hn]
      refine List.pairwise_cons.2 ⟨?_, ih hrest⟩
      intro y hy
      rcases mem_onWriteInt_name name cb rest y hy with h1 | ⟨z, hz, h2⟩
      · rw [h1]; exact fun hcon => hn hcon
      · rw [h2]; exact he z hz

/-- With pairwise-distinct names, registering an integer handler and then
dispatching an integer update for the same name invokes exactly that
handler with `value.toInt()`. -/
theorem processUpdate_onWriteInt (name value : String) (b : Nat) :
    ∀ cbs : List CallbackEntry, cbsWF cbs →
      processUpdate name value VarType.INT_TYPE (onWriteInt name b cbs) =
        [CbEvent.intCall b (arduinoToInt value)] := by
  intro cbs
  induction cbs with
  | nil =>
    intro _
    simp [onWriteInt, processUpdate, dispatchEntry]
  | cons e rest ih =>
    intro h
    rcases List.pairwise_cons.1 h with ⟨he, hrest⟩
    by_cases hn : e.name = name
    · rw [onWriteInt, if_pos hn]
      show (if e.name = name then _ else []) ++ _ = _
      rw [if_pos hn]
      have hr : processUpdate name value VarType.INT_TYPE rest = [] :=
        processUpdate_eq_nil_of_nomatch name value VarType.INT_TYPE rest
          fun x hx => by
            have := he x hx
            rw [hn] at this
            exact fun hc => this hc.symm
      rw [hr]
      rfl
    · rw [onWriteInt, if_neg hn]
      show (if e.name = name then dispatchEntry value VarType.INT_TYPE e else []) ++ _ = _
      rw [if_neg hn, List.nil_append]
      exact ih hrest

/-- With pairwise-distinct names, a float registration for a name does not
disturb a previously registered integer handler for that name: an integer
update still invokes the old integer handler. -/
theorem processUpdate_onWriteFloat_onWriteInt (name value : String) (a b : Nat) :
    ∀ cbs : List CallbackEntry, cbsWF cbs →
      processUpdate name value VarType.INT_TYPE (onWriteFloat name b (onWriteInt name a cbs)) =
        [CbEvent.intCall a (arduinoToInt value)] := by
  intro cbs
  induction cbs with
  | nil =>
    intro _
    simp [onWriteInt, onWriteFloat, processUpdate, dispatchEntry]
  | cons e rest ih =>
    intro h
    rcases List.pairwise_cons.1 h with ⟨he, hrest⟩
    by_cases hn : e.name = name
    · rw [onWriteInt, if_pos hn, onWriteFloat, if_pos hn]
      show (if e.name = name then _ else []) ++ _ = _
      rw [if_pos hn]
      have hr : processUpdate name value VarType.INT_TYPE rest = [] :=
        processUpdate_eq_nil_of_nomatch name value VarType.INT_TYPE rest
          fun x hx => by
            have := he x hx
            rw [hn] at this
            exact fun hc => this hc.symm
      rw [hr]
      rfl
    · rw [onWriteInt, if_neg hn, onWriteFloat]
      show processUpdate name value VarType.INT_TYPE
          (if e.name = name then _ else e :: onWriteFloat name b (onWriteInt name a rest)) = _
      rw [if_neg hn]
      show (if e.name = name then dispatchEntry value VarType.INT_TYPE e else []) ++ _ = _
      rw [if_neg hn, List.nil_append]
      exact ih hrest

/-! ## Conversion lemmas -/

theorem natToDigits_isDigit (n : Nat) : ∀ c ∈ natToDigits n, c.isDigit = true :=
  fun c hc => decDigits_isDigit c (natToDigits_mem n c hc)

theorem natToDigits_not_space (n : Nat) : ∀ c ∈ natToDigits n, isCSpace c = false :=
  fun c hc => decDigits_not_space c (natToDigits_mem n c hc)

theorem splitSign_minus (l : List Char) : splitSign ('-' :: l) = (true, l) := by
  simp [splitSign]

theorem splitSign_no_sign (c : Char) (l : List Char) (h1 : c ≠ '-') (h2 : c ≠ '+') :
    splitSign (c :: l) = (false, c :: l) := by
  simp [splitSign, h1, h2]

/-- `String(int)` parses back through `String::toInt` to the same integer. -/
theorem arduinoToInt_intToString (i : Int) : arduinoToInt (intToString i) = i := by
  by_cases hneg : i < 0
  · have hdata : (intToString i).data = '-' :: natToDigits i.natAbs := by
      rw [intToString, if_pos hneg]
    rw [arduinoToInt, hdata]
    rw [dropWhile_cons_neg (by decide : isCSpace '-' = false), splitSign_minus]
    rw [takeWhile_eq_self (natToDigits_isDigit i.natAbs), digitsVal_natToDigits]
    simp only [if_true]
    omega
  · have hdata : (intToString i).data = natToDigits i.toNat := by
      rw [intToString, if_neg hneg]
    rw [arduinoToInt, hdata]
    cases hl : natToDigits i.toNat with
    | nil => exact absurd hl (natToDigits_ne_nil i.toNat)
    | cons c cs =>
      have hcmem : c ∈ decDigits := natToDigits_mem i.toNat c (by rw [hl]; simp)
      have hcsp := decDigits_not_space c hcmem
      rcases decDigits_not_special c hcmem with ⟨hm, hp, _⟩
      rw [dropWhile_cons_neg hcsp, splitSign_no_sign c cs hm hp]
      have : List.takeWhile Char.isDigit (c :: cs) = c :: cs := by
        rw [← hl]
        exact takeWhile_eq_self (natToDigits_isDigit i.toNat)
      rw [this, ← hl, digitsVal_natToDigits]
      simp only [if_false]
      exact Int.toNat_of_nonneg (by omega)

theorem splitSign_snd_subset (cs : List Char) :
    ∀ c ∈ (splitSign cs).2, c ∈ cs := by
  cases cs with
  | nil => intro c hc; exact absurd hc (by simp [splitSign])
  | cons d rest =>
    intro c hc
    by_cases h1 : d = '-'
    · subst h1
      rw [splitSign_minus] at hc
      exact List.mem_cons_of_mem _ hc
    · by_cases h2 : d = '+'
      · subst h2
        simp only [splitSign, if_neg (by decide : ('+' : Char) ≠ '-'), if_pos rfl] at hc
        exact List.mem_cons_of_mem _ hc
      · rw [splitSign_no_sign d rest h1 h2] at hc
        exact hc

theorem splitFrac_fst_nil (cs : List Char) (h : ∀ c ∈ cs, c.isDigit = false) :
    (splitFrac cs).1 = [] := by
  cases cs with
  | nil => rfl
  | cons d rest =>
    by_cases h1 : d = '.'
    · subst h1
      simp only [splitFrac, if_pos rfl]
      exact takeWhile_eq_nil fun c hc => h c (List.mem_cons_of_mem _ hc)
    · simp [splitFrac, h1]

/-- `atol` of text containing no decimal digit is 0. -/
theorem arduinoToInt_no_digit (s : String) (h : ∀ c ∈ s.data, c.isDigit = false) :
    arduinoToInt s = 0 := by
  rw [arduinoToInt]
  have hdrop : ∀ c ∈ s.data.dropWhile isCSpace, c.isDigit = false :=
    fun c hc => h c (mem_of_mem_dropWhile hc)
  have hsnd : ∀ c ∈ (splitSign (s.data.dropWhile isCSpace)).2, c.isDigit = false :=
    fun c hc => hdrop c (splitSign_snd_subset _ c hc)
  rw [takeWhile_eq_nil hsnd]
  show (if (splitSign (s.data.dropWhile isCSpace)).1 then -(digitsVal [] : Int) else (digitsVal [] : Int)) = 0
  cases (splitSign (s.data.dropWhile isCSpace)).1 <;> simp [digitsVal]

/-- Digit-free input can never open the hexadecimal production, whose
first character is the digit `0`. -/
theorem isHexStart_no_digit (cs : List Char) (h : ∀ c ∈ cs, c.isDigit = false) :
    isHexStart cs = false := by
  cases cs with
  | nil => rfl
  | cons c0 rest =>
    cases rest with
    | nil => rfl
    | cons c1 rest2 =>
      have h0 : c0.isDigit = false := h c0 (List.mem_cons_self _ _)
      have hb : (c0 == '0') = false := by
        by_cases hc : c0 = '0'
        · subst hc
          exact absurd h0 (by decide)
        · simp [hc]
      simp only [isHexStart, hb, Bool.false_and]

/-- `strtod` of text containing no decimal digit and matching neither the
infinity nor the NaN production performs no conversion: the result is 0.
(Digit-free text cannot enter the hexadecimal production either, which
starts with the digit `0`.) -/
theorem arduinoToFloat_no_digit (s : String) (h : ∀ c ∈ s.data, c.isDigit = false)
    (hsp : strtodSpecial s = false) :
    arduinoToFloat s = FloatVal.finite 0 := by
  have hinf : strtodInf s = false := by
    cases hx : strtodInf s
    · rfl
    · rw [strtodSpecial, hx] at hsp
      simp at hsp
  have hnan : strtodNaN s = false := by
    cases hx : strtodNaN s
    · rfl
    · rw [strtodSpecial, hx] at hsp
      simp at hsp
  have hdrop : ∀ c ∈ s.data.dropWhile isCSpace, c.isDigit = false :=
    fun c hc => h c (mem_of_mem_dropWhile hc)
  have hsnd : ∀ c ∈ (splitSign (s.data.dropWhile isCSpace)).2, c.isDigit = false :=
    fun c hc => hdrop c (splitSign_snd_subset _ c hc)
  have hhex : isHexStart (splitSign (s.data.dropWhile isCSpace)).2 = false :=
    isHexStart_no_digit _ hsnd
  have hip : List.takeWhile Char.isDigit (splitSign (s.data.dropWhile isCSpace)).2 = [] :=
    takeWhile_eq_nil hsnd
  have hcs2 : ∀ c ∈ List.dropWhile Char.isDigit (splitSign (s.data.dropWhile isCSpace)).2,
      c.isDigit = false :=
    fun c hc => hsnd c (mem_of_mem_dropWhile hc)
  have hfp : (splitFrac (List.dropWhile Char.isDigit
      (splitSign (s.data.dropWhile isCSpace)).2)).1 = [] :=
    splitFrac_fst_nil _ hcs2
  rw [arduinoToFloat,
    show matchesCI "inf" (splitSign (s.data.dropWhile isCSpace)).2 = false from hinf,
    if_neg (by decide : ¬ (false = true)),
    show matchesCI "nan" (splitSign (s.data.dropWhile isCSpace)).2 = false from hnan,
    if_neg (by decide : ¬ (false = true)),
    hhex, if_neg (by decide : ¬ (false = true)), parseDecimal]
  rw [if_pos ⟨hip, hfp⟩]

/-- When the input matches the infinity production, `strtod` returns the
signed infinity. -/
theorem arduinoToFloat_inf (s : String) (h : strtodInf s = true) :
    arduinoToFloat s = FloatVal.inf (strtodSign s) := by
  rw [arduinoToFloat,
    show matchesCI "inf" (splitSign (s.data.dropWhile isCSpace)).2 = true from h,
    if_pos rfl]
  rfl

/-- When the input matches the NaN production (and not the infinity one),
`strtod` returns the signed NaN. -/
theorem arduinoToFloat_nan (s : String) (hni : strtodInf s = false)
    (h : strtodNaN s = true) :
    arduinoToFloat s = FloatVal.nan (strtodSign s) := by
  rw [arduinoToFloat,
    show matchesCI "inf" (splitSign (s.data.dropWhile isCSpace)).2 = false from hni,
    if_neg (by decide : ¬ (false = true)),
    show matchesCI "nan" (splitSign (s.data.dropWhile isCSpace)).2 = true from h,
    if_pos rfl]
  rfl

theorem padZeros_mem (l : List Char) : ∀ c ∈ padZeros l, c = '0' ∨ c ∈ l := by
  intro c hc
  rcases List.mem_append.1 hc with h1 | h2
  · exact Or.inl (List.eq_of_mem_replicate h1)
  · exact Or.inr h2

theorem padZeros_isDigit (l : List Char) (h : ∀ c ∈ l, c.isDigit = true) :
    ∀ c ∈ padZeros l, c.isDigit = true := by
  intro c hc
  rcases padZeros_mem l c hc with h1 | h2
  · subst h1; rfl
  · exact h c h2

theorem padZeros_length (l : List Char) (h : l.length ≤ 6) : (padZeros l).length = 6 := by
  simp only [padZeros, List.length_append, List.length_replicate]
  omega

theorem digitsVal_padZeros (l : List Char) : digitsVal (padZeros l) = digitsVal l :=
  digitsVal_replicate_zero _ l

/-- Parsing the concatenation `integer digits ++ '.' :: fraction digits`:
the integer digits form the digit run, and the fraction run consumes the
rest of the input. -/
theorem parse_digits_dot (ip fp : List Char) (hip : ∀ c ∈ ip, c.isDigit = true)
    (hfp : ∀ c ∈ fp, c.isDigit = true) :
    List.takeWhile Char.isDigit (ip ++ '.' :: fp) = ip ∧
    splitFrac (List.dropWhile Char.isDigit (ip ++ '.' :: fp)) = (fp, []) := by
  constructor
  · rw [List.takeWhile_append_of_pos hip]
    simp [List.takeWhile_cons]
  · rw [List.dropWhile_append_of_pos hip,
      dropWhile_cons_neg (by decide : Char.isDigit '.' = false)]
    simp only [splitFrac, if_pos rfl]
    rw [takeWhile_eq_self hfp, dropWhile_eq_nil hfp]
    simp

/-- Digit-led input (as produced by the canonical float formatter) matches
none of `strtod`'s special productions. -/
theorem special_branches_digits (ip fp : List Char) (h : ∀ c ∈ ip, c ∈ decDigits)
    (hne : ip ≠ []) :
    matchesCI "inf" (ip ++ '.' :: fp) = false ∧
    matchesCI "nan" (ip ++ '.' :: fp) = false ∧
    isHexStart (ip ++ '.' :: fp) = false := by
  cases ip with
  | nil => exact absurd rfl hne
  | cons c rest =>
    have hc : c ∈ decDigits := h c (List.mem_cons_self _ _)
    refine ⟨?_, ?_, ?_⟩
    · rw [List.cons_append]
      fin_cases hc <;> rfl
    · rw [List.cons_append]
      fin_cases hc <;> rfl
    · cases rest with
      | nil =>
        rw [List.cons_append, List.nil_append]
        fin_cases hc <;> rfl
      | cons c2 rest2 =>
        have hc2 : c2 ∈ decDigits := h c2 (List.mem_cons_of_mem _ (List.mem_cons_self _ _))
        rw [List.cons_append, List.cons_append]
        fin_cases hc <;> fin_cases hc2 <;> rfl

/-- `strtod`'s decimal production on `integer digits ++ '.' :: fraction
digits` input. -/
theorem parseDecimal_digits_dot (neg : Bool) (ip fp : List Char)
    (hip : ∀ c ∈ ip, c.isDigit = true) (hfp : ∀ c ∈ fp, c.isDigit = true)
    (hne : ip ≠ []) :
    parseDecimal neg (ip ++ '.' :: fp) =
      FloatVal.finite ((if neg then -1 else 1) *
        ((digitsVal ip : Rat) + (digitsVal fp : Rat) / (10 : Rat) ^ fp.length)) := by
  obtain ⟨h1, h2⟩ := parse_digits_dot ip fp hip hfp
  rw [parseDecimal]
  simp only [h1, h2]
  rw [if_neg fun hcon => hne hcon.1]
  rw [show parseExpPart ([] : List Char) = 0 from rfl, zpow_zero, mul_one]
  cases neg
  · simp
  · simp [neg_one_mul]

/-- Recombine the integer and fraction parts of a six-decimal print. -/
theorem split_div_million (m : Nat) :
    ((m / 1000000 : Nat) : Rat) + ((m % 1000000 : Nat) : Rat) / (10 : Rat) ^ (6 : Nat) =
      (m : Rat) / 1000000 := by
  have hm : (1000000 : Rat) * ((m / 1000000 : Nat) : Rat) + ((m % 1000000 : Nat) : Rat) =
      (m : Rat) := by
    exact_mod_cast Nat.div_add_mod m 1000000
  have h10 : (10 : Rat) ^ (6 : Nat) = 1000000 := by norm_num
  rw [h10, ← hm]
  field_simp
  ring

/-- `String(value, 6)` parses back through `String::toFloat` to the
original value rounded (half up) to six decimal places: the formatted
text is digit-led, so none of `strtod`'s special productions fire and the
decimal production reconstructs the rounded value. -/
theorem arduinoToFloat_fmtFloat (q : Rat) :
    arduinoToFloat (fmtFloat q) = FloatVal.finite (round6 q) := by
  obtain ⟨m, hm⟩ : ∃ m, round6Num q = m := ⟨_, rfl⟩
  have hmod : m % 1000000 < 1000000 := Nat.mod_lt _ (by norm_num)
  have hlen0 : (natToDigits (m % 1000000)).length ≤ 6 :=
    natToDigits_length_le 6 _ (by norm_num) (by norm_num; exact hmod)
  have hipd := natToDigits_isDigit (m / 1000000)
  have hfpd : ∀ c ∈ padZeros (natToDigits (m % 1000000)), c.isDigit = true :=
    padZeros_isDigit _ (natToDigits_isDigit (m % 1000000))
  have hfplen : (padZeros (natToDigits (m % 1000000))).length = 6 := padZeros_length _ hlen0
  have hipne := natToDigits_ne_nil (m / 1000000)
  have hvip := digitsVal_natToDigits (m / 1000000)
  have hvfp : digitsVal (padZeros (natToDigits (m % 1000000))) = m % 1000000 := by
    rw [digitsVal_padZeros, digitsVal_natToDigits]
  obtain ⟨hbinf, hbnan, hbhex⟩ :=
    special_branches_digits (natToDigits (m / 1000000))
      (padZeros (natToDigits (m % 1000000))) (natToDigits_mem (m / 1000000)) hipne
  have hdata : (fmtFloat q).data =
      (if q < 0 then ['-'] else []) ++
        natToDigits (m / 1000000) ++ '.' :: padZeros (natToDigits (m % 1000000)) := by
    simp only [fmtFloat, hm]
  by_cases hq : q < 0
  · rw [if_pos hq, List.singleton_append, List.cons_append] at hdata
    rw [arduinoToFloat, hdata]
    rw [dropWhile_cons_neg (by decide : isCSpace '-' = false), splitSign_minus]
    simp only [hbinf, hbnan, hbhex, Bool.false_eq_true, if_false]
    rw [parseDecimal_digits_dot true _ _ hipd hfpd hipne]
    refine congrArg FloatVal.finite ?_
    rw [hvip, hvfp, hfplen, split_div_million, round6, hm, if_pos hq]
    simp
  · rw [if_neg hq, List.nil_append] at hdata
    cases hip_eq : natToDigits (m / 1000000) with
    | nil => exact absurd hip_eq hipne
    | cons c cs =>
      have hcmem : c ∈ decDigits := natToDigits_mem _ c (by rw [hip_eq]; simp)
      have hcsp := decDigits_not_space c hcmem
      rcases decDigits_not_special c hcmem with ⟨hcm, hcp, _⟩
      rw [hip_eq] at hdata hbinf hbnan hbhex
      rw [arduinoToFloat, hdata, List.cons_append]
      rw [dropWhile_cons_neg hcsp, splitSign_no_sign c _ hcm hcp]
      rw [← List.cons_append]
      simp only [hbinf, hbnan, hbhex, Bool.false_eq_true, if_false]
      rw [parseDecimal_digits_dot false (c :: cs) _ (hip_eq ▸ hipd) hfpd (by simp)]
      refine congrArg FloatVal.finite ?_
      rw [← hip_eq, hvip, hvfp, hfplen, split_div_million, round6, hm, if_neg hq]
      simp

/-! ## Operation-level helper lemmas -/

theorem sendVariable_ne_empty (r : Response) (h : r ≠ Response.empty) :
    sendVariable r = true := by
  cases r with
  | empty => exact absurd rfl h
  | unparseable => rfl
  | parsed k => rfl

theorem updateCache_fst_cache (name value : String) (t : VarType) (st : ClientState) :
    (updateCache name value t st).1.cache = updateCacheList name value t st.cache := rfl

theorem virtualWriteInt_success (name : String) (i : Int) (r : Response) (st : ClientState)
    (h : r ≠ Response.empty) :
    virtualWriteInt name i r st =
      (true, (updateCache name (intToString i) VarType.INT_TYPE st).1,
        (updateCache name (intToString i) VarType.INT_TYPE st).2) := by
  simp [virtualWriteInt, sendVariable_ne_empty r h]

theorem virtualWriteFloat_success (name : String) (q : Rat) (r : Response) (st : ClientState)
    (h : r ≠ Response.empty) :
    virtualWriteFloat name q r st =
      (true, (updateCache name (fmtFloat q) VarType.FLOAT_TYPE st).1,
        (updateCache name (fmtFloat q) VarType.FLOAT_TYPE st).2) := by
  simp [virtualWriteFloat, sendVariable_ne_empty r h]

theorem virtualWriteBool_success (name : String) (b : Bool) (r : Response) (st : ClientState)
    (h : r ≠ Response.empty) :
    virtualWriteBool name b r st =
      (true, (updateCache name (if b then "true" else "false") VarType.BOOLEAN_TYPE st).1,
        (updateCache name (if b then "true" else "false") VarType.BOOLEAN_TYPE st).2) := by
  simp [virtualWriteBool, sendVariable_ne_empty r h]

theorem virtualWriteString_success (name value : String) (r : Response) (st : ClientState)
    (h : r ≠ Response.empty) :
    virtualWriteString name value r st =
      (true, (updateCache name value VarType.STRING_TYPE st).1,
        (updateCache name value VarType.STRING_TYPE st).2) := by
  simp [virtualWriteString, sendVariable_ne_empty r h]

theorem virtualReadInt_updateCache (name value : String) (st : ClientState) :
    virtualReadInt name (updateCache name value VarType.INT_TYPE st).1 = arduinoToInt value := by
  rw [virtualReadInt, updateCache_fst_cache, findInCache_updateCacheList]

theorem virtualReadFloat_updateCache (name value : String) (st : ClientState) :
    virtualReadFloat name (updateCache name value VarType.FLOAT_TYPE st).1 = arduinoToFloat value := by
  rw [virtualReadFloat, updateCache_fst_cache, findInCache_updateCacheList]

theorem virtualReadBool_updateCache (name value : String) (st : ClientState) :
    virtualReadBool name (updateCache name value VarType.BOOLEAN_TYPE st).1 = arduinoToBool value := by
  rw [virtualReadBool, updateCache_fst_cache, findInCache_updateCacheList]

theorem virtualReadString_updateCache (name value : String) (st : ClientState) :
    virtualReadString name (updateCache name value VarType.STRING_TYPE st).1 = value := by
  rw [virtualReadString, updateCache_fst_cache, findInCache_updateCacheList]

theorem arduinoToBool_of_bool (b : Bool) :
    arduinoToBool (if b then "true" else "false") = b := by
  cases b <;> decide

theorem cacheWF_virtualWriteInt (st : ClientState) (n : String) (i : Int) (r : Response)
    (h : cacheWF st.cache) : cacheWF (virtualWriteInt n i r st).2.1.cache := by
  rw [virtualWriteInt]
  cases hsv : sendVariable r
  · simpa using h
  · simpa using cacheWF_updateCacheList n (intToString i) VarType.INT_TYPE st.cache h

theorem cacheWF_virtualWriteFloat (st : ClientState) (n : String) (q : Rat) (r : Response)
    (h : cacheWF st.cache) : cacheWF (virtualWriteFloat n q r st).2.1.cache := by
  rw [virtualWriteFloat]
  cases hsv : sendVariable r
  · simpa using h
  · simpa using cacheWF_updateCacheList n (fmtFloat q) VarType.FLOAT_TYPE st.cache h

theorem cacheWF_virtualWriteBool (st : ClientState) (n : String) (b : Bool) (r : Response)
    (h : cacheWF st.cache) : cacheWF (virtualWriteBool n b r st).2.1.cache := by
  rw [virtualWriteBool]
  cases hsv : sendVariable r
  · simpa using h
  · simpa using cacheWF_updateCacheList n (if b then "true" else "false")
      VarType.BOOLEAN_TYPE st.cache h

theorem cacheWF_virtualWriteString (st : ClientState) (n v : String) (r : Response)
    (h : cacheWF st.cache) : cacheWF (virtualWriteString n v r st).2.1.cache := by
  rw [virtualWriteString]
  cases hsv : sendVariable r
  · simpa using h
  · simpa using cacheWF_updateCacheList n v VarType.STRING_TYPE st.cache h

theorem cacheWF_applyEntries :
    ∀ (es : List PullEntry) (st : ClientState), cacheWF st.cache →
      cacheWF (applyEntries es st).1.cache := by
  intro es
  induction es with
  | nil => intro st h; exact h
  | cons e rest ih =>
    intro st h
    show cacheWF (applyEntries rest (updateCache e.name e.value (stringToVarType e.typeS) st).1).1.cache
    exact ih _ (cacheWF_updateCacheList e.name e.value (stringToVarType e.typeS) st.cache h)

theorem cacheWF_syncNow (st : ClientState) (p : PullResponse) (h : cacheWF st.cache) :
    cacheWF (syncNow p st).2.1.cache := by
  cases p with
  | empty => exact h
  | malformed => exact h
  | noVariablesKey => exact h
  | vars es => exact cacheWF_applyEntries es st h

theorem cacheWF_loop (st : ClientState) (now : Nat) (hb : Response) (p : PullResponse)
    (h : cacheWF st.cache) : cacheWF (loop now hb p st).1.cache := by
  rw [loop]
  by_cases hdue : u32sub now st.lastHeartbeat ≥ st.heartbeatInterval
  · rw [if_pos hdue]
    exact cacheWF_syncNow st p h
  · rw [if_neg hdue]
    exact h

/-- With the single-slot discipline, an update whose type matches no
name-matching entry's recorded type dispatches nothing at all. -/
theorem processUpdate_mismatch (name value : String) (t : VarType) :
    ∀ cbs : List CallbackEntry, (∀ e ∈ cbs, entryTypeConsistent e) →
      (∀ e ∈ cbs, e.name = name → e.type ≠ t) →
      processUpdate name value t cbs = [] := by
  intro cbs
  induction cbs with
  | nil => intro _ _; rfl
  | cons e rest ih =>
    intro h1 h2
    show (if e.name = name then dispatchEntry value t e else []) ++ _ = []
    rw [ih (fun x hx => h1 x (List.mem_cons_of_mem e hx))
        (fun x hx => h2 x (List.mem_cons_of_mem e hx)), List.append_nil]
    by_cases hn : e.name = name
    · rw [if_pos hn]
      exact dispatchEntry_eq_nil_of_mismatch value t e (h1 e (List.mem_cons_self e rest))
        (h2 e (List.mem_cons_self e rest) hn)
    · rw [if_neg hn]

/-- Any event produced by the dispatch body of a matching entry occurs in
the full dispatch for the registry. -/
theorem dispatch_mem (name value : String) (e : CallbackEntry) :
    ∀ cbs : List CallbackEntry, e ∈ cbs → e.name = name →
      ∀ (ev : CbEvent) (t : VarType), ev ∈ dispatchEntry value t e →
        ev ∈ processUpdate name value t cbs := by
  intro cbs
  induction cbs with
  | nil => intro h; exact absurd h (by simp)
  | cons d rest ih =>
    intro he hn ev t hev
    show ev ∈ (if d.name = name then dispatchEntry value t d else []) ++
      processUpdate name value t rest
    rcases List.mem_cons.1 he with h1 | h2
    · subst h1
      rw [if_pos hn]
      exact List.mem_append_left _ hev
    · exact List.mem_append_right _ (ih h2 hn ev t hev)

/-! ## Demonstration states used by the concrete instantiations -/

/-- A state holding a prior float value for `"t"` and no callbacks. -/
def st0 : ClientState := ⟨[⟨"t", VarType.FLOAT_TYPE, "20.0"⟩], [], 0, 30000⟩

/-- A state whose cache stores non-numeric text under `"x"`. -/
def st1 : ClientState := ⟨[⟨"x", VarType.STRING_TYPE, "abc"⟩], [], 0, 30000⟩

/-- A state with a single integer handler (id 1) registered for `"x"`. -/
def demoStateInt : ClientState := ⟨[], onWriteInt "x" 1 [], 0, 30000⟩

/-- A registry with a single integer handler (id 5) for `"x"`. -/
def demoCbs10 : List CallbackEntry := [⟨"x", VarType.INT_TYPE, some 5, none, none, none⟩]

/-- A state whose cache stores the text `"inf"` under `"x"`. -/
def stInf : ClientState := ⟨[⟨"x", VarType.FLOAT_TYPE, "inf"⟩], [], 0, 30000⟩

/-- A registry with a single float handler (id 7) for `"x"`. -/
def demoFloatCbs : List CallbackEntry := [⟨"x", VarType.FLOAT_TYPE, none, some 7, none, none⟩]

/-! ## Claims -/

/-- C1 counterexample: register integer handler 1 for `"x"`, then float
handler 2 for `"x"`.  The registry holds a single entry whose recorded
type is `INT_TYPE`, yet a float-typed dispatch for `"x"` invokes handler 2
— so "the stored handler is invoked only if the entry's recorded type
equals the incoming type" is false: `processUpdate` never consults the
recorded `type` field, only the slot matching the incoming type. -/
theorem C1_counterexample :
    (∀ e ∈ onWriteFloat "x" 2 (onWriteInt "x" 1 []), e.type = VarType.INT_TYPE) ∧
    processUpdate "x" "7" VarType.FLOAT_TYPE (onWriteFloat "x" 2 (onWriteInt "x" 1 [])) =
      [CbEvent.floatCall 2 (arduinoToFloat "7")] := by
  exact ⟨by decide, rfl⟩

/-- C1 (amended): dispatch is gated by the handler slot for the incoming
type, not by the entry's recorded `type` field.  Under the single-slot
discipline `entryTypeConsistent` — which holds whenever each name has only
ever been registered with handlers of one type, the situation the claim
describes — an update whose type differs from the recorded type of every
entry for the name invokes no handler, and (for a pull or a local write
alike, both of which go through `updateCache`) the cache still stores the
new type and value together. -/
theorem C1_mismatch_suppresses_dispatch (st : ClientState) (name value : String) (t : VarType)
    (hcons : ∀ e ∈ st.callbacks, entryTypeConsistent e)
    (hmis : ∀ e ∈ st.callbacks, e.name = name → e.type ≠ t) :
    (updateCache name value t st).2 = [] ∧
    findInCache name (updateCache name value t st).1.cache = some ⟨name, t, value⟩ := by
  constructor
  · exact processUpdate_mismatch name value t st.callbacks hcons hmis
  · rw [updateCache_fst_cache]
    exact findInCache_updateCacheList name value t st.cache

/-- C1 witness: an integer handler is registered for `"x"`; a float-typed
update for `"x"` dispatches nothing but is stored. -/
theorem C1_witness :
    (updateCache "x" "1.5" VarType.FLOAT_TYPE demoStateInt).2 = [] ∧
    findInCache "x" (updateCache "x" "1.5" VarType.FLOAT_TYPE demoStateInt).1.cache =
      some ⟨"x", VarType.FLOAT_TYPE, "1.5"⟩ :=
  C1_mismatch_suppresses_dispatch demoStateInt "x" "1.5" VarType.FLOAT_TYPE
    (by decide) (by decide)

/-- C2 counterexample: register integer handler 1 (A) for `"x"`, then float
handler 2 (B) for `"x"`.  A subsequent integer-typed dispatch for `"x"`
still invokes handler 1 — so "after registering handler A then handler B
for the same name, only B is ever invoked" is false when the two
registrations use different types: the later registration only fills its
own slot of the shared entry. -/
theorem C2_counterexample :
    processUpdate "x" "5" VarType.INT_TYPE (onWriteFloat "x" 2 (onWriteInt "x" 1 [])) =
      [CbEvent.intCall 1 (arduinoToInt "5")] ∧ arduinoToInt "5" = 5 := by
  exact ⟨rfl, by decide⟩

/-- C2 (amended): at most one `CallbackEntry` per name is maintained by
registration, and a later registration of the *same* type replaces the
earlier handler (last same-type registration wins): after registering
integer handlers `a` then `b` for a name, an integer dispatch invokes only
`b`.  A later registration of a *different* type, however, fills a
different slot of the same entry and leaves the earlier handler in place:
after registering integer handler `a` and then float handler `b`, an
integer dispatch still invokes `a`. -/
theorem C2_last_same_type_wins (cbs : List CallbackEntry) (name : String) (a b : Nat)
    (v : String) (hwf : cbsWF cbs) :
    cbsWF (onWriteInt name b cbs) ∧
    processUpdate name v VarType.INT_TYPE (onWriteInt name b (onWriteInt name a cbs)) =
      [CbEvent.intCall b (arduinoToInt v)] ∧
    processUpdate name v VarType.INT_TYPE (onWriteFloat name b (onWriteInt name a cbs)) =
      [CbEvent.intCall a (arduinoToInt v)] :=
  ⟨cbsWF_onWriteInt name b cbs hwf,
   processUpdate_onWriteInt name v b _ (cbsWF_onWriteInt name a cbs hwf),
   processUpdate_onWriteFloat_onWriteInt name v a b cbs hwf⟩

/-- C2 witness: double integer registration for `"y"` on the empty registry;
the later handler 2 is the one invoked. -/
theorem C2_witness :
    processUpdate "y" "5" VarType.INT_TYPE (onWriteInt "y" 2 (onWriteInt "y" 1 [])) =
      [CbEvent.intCall 2 (arduinoToInt "5")] :=
  (C2_last_same_type_wins [] "y" 1 2 "5" List.Pairwise.nil).2.1

/-- C3: a pull whose transport response is empty, whose body fails to
parse, or whose body lacks the `variables` key returns failure and leaves
the client state (in particular the cache) completely unchanged, with no
dispatch.  An unparseable pulled triple is covered by the `malformed`
case: a triple that is not valid JSON makes the whole document fail
`deserializeJson`, and the apply loop is never reached
(parse-then-apply). -/
theorem C3_failed_pull_no_mutation (st : ClientState) (r : PullResponse)
    (h : r = PullResponse.empty ∨ r = PullResponse.malformed ∨ r = PullResponse.noVariablesKey) :
    syncNow r st = (false, st, []) := by
  rcases h with h | h | h <;> subst h <;> rfl

/-- C3 witness: an empty pull response leaves the prior cached value of
`"t"` in place and reports failure. -/
theorem C3_witness : syncNow PullResponse.empty st0 = (false, st0, []) :=
  C3_failed_pull_no_mutation st0 PullResponse.empty (Or.inl rfl)

/-- C4 counterexample: a non-empty heartbeat response that is not
parseable JSON has no parseable success flag, yet `sendHeartbeat` returns
false (`if (deserializeJson(rd, res)) return false;`) — refuting "any
non-empty response that lacks a parseable success flag makes it return
true". -/
theorem C4_counterexample : sendHeartbeat Response.unparseable = false := rfl

/-- C4 (amended): an empty response (transport failure) returns false; a
non-empty response that fails JSON parsing also returns false — the
lenient treatment applies only to responses that parse: a parsed response
without a `success` key returns true, one with a boolean `success` flag
returns the flag, and one with a non-boolean `success` value falls back to
false (`rd["success"] | false`). -/
theorem C4_heartbeat_result :
    sendHeartbeat Response.empty = false ∧
    sendHeartbeat Response.unparseable = false ∧
    sendHeartbeat (Response.parsed none) = true ∧
    (∀ b, sendHeartbeat (Response.parsed (some (some b))) = b) ∧
    sendHeartbeat (Response.parsed (some none)) = false :=
  ⟨rfl, rfl, rfl, fun _ => rfl, rfl⟩

/-- C5: when the heartbeat interval has elapsed, the tick issues the
heartbeat and then the pull, applies the pull's cache updates and
dispatches, and advances `lastHeartbeat` to `now` — the result does not
depend on the heartbeat outcome `hb` at all, so a failed heartbeat never
blocks the pull and the interval timer always advances.  Otherwise the
tick performs no network activity and changes nothing. -/
theorem C5_tick (st : ClientState) (now : Nat) (hb : Response) (p : PullResponse) :
    (u32sub now st.lastHeartbeat ≥ st.heartbeatInterval →
      loop now hb p st =
        (⟨(syncNow p st).2.1.cache, (syncNow p st).2.1.callbacks, now,
            (syncNow p st).2.1.heartbeatInterval⟩,
         [NetAction.heartbeat, NetAction.pull], (syncNow p st).2.2)) ∧
    (u32sub now st.lastHeartbeat < st.heartbeatInterval →
      loop now hb p st = (st, [], [])) := by
  constructor
  · intro h
    rw [loop, if_pos h]
  · intro h
    rw [loop, if_neg (by omega)]

/-- C5 witness: a due tick whose heartbeat fails outright (empty response)
still performs the pull and advances the timer to `now = 30000`. -/
theorem C5_witness :
    loop 30000 Response.empty (PullResponse.vars []) st0 =
      (⟨(syncNow (PullResponse.vars []) st0).2.1.cache,
          (syncNow (PullResponse.vars []) st0).2.1.callbacks, 30000,
          (syncNow (PullResponse.vars []) st0).2.1.heartbeatInterval⟩,
       [NetAction.heartbeat, NetAction.pull],
       (syncNow (PullResponse.vars []) st0).2.2) :=
  (C5_tick st0 30000 Response.empty (PullResponse.vars [])).1 (by decide)

/-- C6: for each of the four `virtualWrite` overloads, an empty transport
response makes the write return false with the whole state (cache
included) untouched and no dispatch; a non-empty response makes the write
succeed, stores the canonical text of the locally intended value (decimal
for integers, `String(value, 6)` six-decimal form for floats,
`"true"`/`"false"` for booleans, the text verbatim), and a subsequent
typed read returns the written value — exactly for integers, booleans and
text, and rounded to six decimal places (`round6`) for floats. -/
theorem C6_write_then_read (st : ClientState) (name : String) (i : Int) (q : Rat)
    (b : Bool) (s : String) (r : Response) (hr : r ≠ Response.empty) :
    (virtualWriteInt name i Response.empty st = (false, st, []) ∧
     virtualWriteFloat name q Response.empty st = (false, st, []) ∧
     virtualWriteBool name b Response.empty st = (false, st, []) ∧
     virtualWriteString name s Response.empty st = (false, st, [])) ∧
    ((virtualWriteInt name i r st).1 = true ∧
     findInCache name (virtualWriteInt name i r st).2.1.cache =
       some ⟨name, VarType.INT_TYPE, intToString i⟩ ∧
     virtualReadInt name (virtualWriteInt name i r st).2.1 = i) ∧
    ((virtualWriteFloat name q r st).1 = true ∧
     findInCache name (virtualWriteFloat name q r st).2.1.cache =
       some ⟨name, VarType.FLOAT_TYPE, fmtFloat q⟩ ∧
     virtualReadFloat name (virtualWriteFloat name q r st).2.1 = FloatVal.finite (round6 q)) ∧
    ((virtualWriteBool name b r st).1 = true ∧
     findInCache name (virtualWriteBool name b r st).2.1.cache =
       some ⟨name, VarType.BOOLEAN_TYPE, if b then "true" else "false"⟩ ∧
     virtualReadBool name (virtualWriteBool name b r st).2.1 = b) ∧
    ((virtualWriteString name s r st).1 = true ∧
     findInCache name (virtualWriteString name s r st).2.1.cache =
       some ⟨name, VarType.STRING_TYPE, s⟩ ∧
     virtualReadString name (virtualWriteString name s r st).2.1 = s) := by
  have hwi := virtualWriteInt_success name i r st hr
  have hwf := virtualWriteFloat_success name q r st hr
  have hwb := virtualWriteBool_success name b r st hr
  have hws := virtualWriteString_success name s r st hr
  refine ⟨⟨rfl, rfl, rfl, rfl⟩, ⟨?_, ?_, ?_⟩, ⟨?_, ?_, ?_⟩, ⟨?_, ?_, ?_⟩, ⟨?_, ?_, ?_⟩⟩
  · rw [hwi]
  · rw [hwi, updateCache_fst_cache]
    exact findInCache_updateCacheList name (intToString i) VarType.INT_TYPE st.cache
  · rw [hwi]
    show virtualReadInt name (updateCache name (intToString i) VarType.INT_TYPE st).1 = i
    rw [virtualReadInt_updateCache, arduinoToInt_intToString]
  · rw [hwf]
  · rw [hwf, updateCache_fst_cache]
    exact findInCache_updateCacheList name (fmtFloat q) VarType.FLOAT_TYPE st.cache
  · rw [hwf]
    show virtualReadFloat name (updateCache name (fmtFloat q) VarType.FLOAT_TYPE st).1 =
      FloatVal.finite (round6 q)
    rw [virtualReadFloat_updateCache, arduinoToFloat_fmtFloat]
  · rw [hwb]
  · rw [hwb, updateCache_fst_cache]
    exact findInCache_updateCacheList name (if b then "true" else "false")
      VarType.BOOLEAN_TYPE st.cache
  · rw [hwb]
    show virtualReadBool name
        (updateCache name (if b then "true" else "false") VarType.BOOLEAN_TYPE st).1 = b
    rw [virtualReadBool_updateCache, arduinoToBool_of_bool]
  · rw [hws]
  · rw [hws, updateCache_fst_cache]
    exact findInCache_updateCacheList name s VarType.STRING_TYPE st.cache
  · rw [hws]
    show virtualReadString name (updateCache name s VarType.STRING_TYPE st).1 = s
    rw [virtualReadString_updateCache]

/-- C6 witness: on `st0` (which holds `"t" = 20.0`), a failed float write
to `"t"` leaves the state untouched, while a successful one stores the
canonical text and reads back as the rounded value. -/
theorem C6_witness :
    virtualWriteFloat "t" (3 / 2) Response.empty st0 = (false, st0, []) ∧
    (virtualWriteFloat "t" (3 / 2) (Response.parsed none) st0).1 = true ∧
    virtualReadFloat "t" (virtualWriteFloat "t" (3 / 2) (Response.parsed none) st0).2.1 =
      FloatVal.finite (round6 (3 / 2)) :=
  have h := C6_write_then_read st0 "t" 42 (3 / 2) true "hi" (Response.parsed none) (by decide)
  ⟨h.1.2.1, h.2.2.1.1, h.2.2.1.2.2⟩

/-- The retry loop under a permanently empty transport: starting with
`rem` allowed iterations at attempt index `attempts`, it performs exactly
`rem` transport calls, returns the empty string, and waits
`100 * (attempts + k + 1)` milliseconds after the `k`-th of them. -/
theorem makeRequestGo_all_empty (responses : Nat → String)
    (hresp : ∀ k, responses k = "") :
    ∀ rem attempts, makeRequestGo (fun _ => true) responses rem attempts =
      ⟨"", rem, (List.range rem).map fun k => 100 * (attempts + k + 1)⟩ := by
  intro rem
  induction rem with
  | zero => intro attempts; rfl
  | succ rem ih =>
    intro attempts
    show (if (responses attempts).length > 0 then (⟨responses attempts, 1, []⟩ : RequestTrace)
          else ⟨(makeRequestGo (fun _ => true) responses rem (attempts + 1)).result,
                (makeRequestGo (fun _ => true) responses rem (attempts + 1)).calls + 1,
                100 * (attempts + 1) ::
                  (makeRequestGo (fun _ => true) responses rem (attempts + 1)).delays⟩) = _
    rw [hresp attempts, if_neg (by decide), ih (attempts + 1)]
    have hlist : (100 * (attempts + 1) ::
        (List.range rem).map fun k => 100 * (attempts + 1 + k + 1)) =
        (List.range (rem + 1)).map fun k => 100 * (attempts + k + 1) := by
      rw [List.range_succ_eq_map, List.map_cons, List.map_map]
      simp only [List.cons.injEq]
      refine ⟨by simp, ?_⟩
      refine List.map_congr_left fun x _ => ?_
      simp only [Function.comp_apply]
      omega
    rw [hlist]

/-- C7: with the transport connected (and `http.begin` succeeding), if the
transport returns an empty body on every attempt, `makeRequest` with retry
count `retries` performs exactly `retries + 1` transport invocations,
returns the empty result, and waits `100 * (k + 1)` milliseconds after
attempt `k` — a delay growing linearly with the attempt number. -/
theorem C7_retry_bound (responses : Nat → String) (retries : Nat)
    (hresp : ∀ k, responses k = "") :
    makeRequest true (fun _ => true) responses retries =
      ⟨"", retries + 1, (List.range (retries + 1)).map fun k => 100 * (k + 1)⟩ := by
  rw [makeRequest, if_pos rfl, makeRequestGo_all_empty responses hresp (retries + 1) 0]
  have hl : ((List.range (retries + 1)).map fun k => 100 * (0 + k + 1)) =
      (List.range (retries + 1)).map fun k => 100 * (k + 1) :=
    List.map_congr_left fun x _ => by omega
  rw [hl]

/-- C7 witness: a retry count of 1 over an always-empty transport yields
exactly 2 invocations, failure, and delays of 100 then 200 ms. -/
theorem C7_witness :
    makeRequest true (fun _ => true) (fun _ => "") 1 = ⟨"", 2, [100, 200]⟩ :=
  (C7_retry_bound (fun _ => "") 1 fun _ => rfl).trans (by decide)

/-- C8 counterexample: the stored text `"inf"` contains no digit — it is
non-numeric text in the claim's sense — yet `virtualReadFloat` returns
positive infinity, not 0.0: `String::toFloat` goes through `strtod`,
whose infinity production matches `inf` case-insensitively.  This refutes
"non-numeric text reads as 0 / 0.0" for the float reader. -/
theorem C8_counterexample :
    virtualReadFloat "x" stInf = FloatVal.inf false ∧
    (∀ c ∈ ("inf" : String).data, c.isDigit = false) := by
  exact ⟨rfl, by decide⟩

/-- C8 (amended): the four typed readers never fail: an absent name reads
as the type-appropriate zero value (0, 0.0, false, empty text); for a
present entry, boolean reading is exactly "case-insensitive `true`, or
literally `1`"; stored text containing no decimal digit always reads as
integer 0, and reads as float 0.0 unless it matches one of `strtod`'s
special productions — an optional sign followed by case-insensitive
`inf`(`inity`) or `nan` — in which case the float reader returns the
corresponding signed infinity or NaN.  The readers are pure functions of
the state, so reading has no side effect on the cache by construction. -/
theorem C8_reader_totality (st : ClientState) (name : String) :
    (findInCache name st.cache = none →
      virtualReadInt name st = 0 ∧ virtualReadFloat name st = FloatVal.finite 0 ∧
      virtualReadBool name st = false ∧ virtualReadString name st = "") ∧
    (∀ v, findInCache name st.cache = some v →
      virtualReadBool name st = (equalsIgnoreCase v.value "true" || v.value == "1") ∧
      (strtodInf v.value = true →
        virtualReadFloat name st = FloatVal.inf (strtodSign v.value)) ∧
      (strtodInf v.value = false → strtodNaN v.value = true →
        virtualReadFloat name st = FloatVal.nan (strtodSign v.value)) ∧
      ((∀ c ∈ v.value.data, c.isDigit = false) →
        virtualReadInt name st = 0 ∧
        (strtodSpecial v.value = false →
          virtualReadFloat name st = FloatVal.finite 0))) := by
  constructor
  · intro h
    refine ⟨?_, ?_, ?_, ?_⟩
    · rw [virtualReadInt, h]
    · rw [virtualReadFloat, h]
    · rw [virtualReadBool, h]
    · rw [virtualReadString, h]
  · intro v hv
    refine ⟨?_, ?_, ?_, ?_⟩
    · rw [virtualReadBool, hv]
      rfl
    · intro hi
      rw [virtualReadFloat, hv]
      exact arduinoToFloat_inf v.value hi
    · intro hni hn
      rw [virtualReadFloat, hv]
      exact arduinoToFloat_nan v.value hni hn
    · intro hnd
      constructor
      · rw [virtualReadInt, hv]
        exact arduinoToInt_no_digit v.value hnd
      · intro hsp
        rw [virtualReadFloat, hv]
        exact arduinoToFloat_no_digit v.value hnd hsp

/-- C8 witness: unknown-name defaults on `st1`, and the non-numeric,
non-special stored text `"abc"` reading as integer 0 and float 0.0. -/
theorem C8_witness :
    virtualReadInt "missing" st1 = 0 ∧ virtualReadFloat "missing" st1 = FloatVal.finite 0 ∧
    virtualReadBool "missing" st1 = false ∧ virtualReadString "missing" st1 = "" ∧
    virtualReadInt "x" st1 = 0 ∧ virtualReadFloat "x" st1 = FloatVal.finite 0 :=
  have h1 := (C8_reader_totality st1 "missing").1 (by decide)
  have h2 := ((C8_reader_totality st1 "x").2 ⟨"x", VarType.STRING_TYPE, "abc"⟩
    (by decide)).2.2.2 (by decide)
  ⟨h1.1, h1.2.1, h1.2.2.1, h1.2.2.2, h2.1, h2.2 (by decide)⟩

/-- C9: every cache-mutating operation preserves the at-most-one-variable-
per-name invariant, and a write to a name is atomic for readers: the
lookup after `updateCacheList` returns exactly the new (type, value) pair,
never a mix of old and new fields.  The preservation is stated for the
core mutation and for every operation that reaches it: the four
`virtualWrite` overloads, `syncNow` (pulled updates) and `loop`. -/
theorem C9_cache_invariant :
    (∀ (name value : String) (t : VarType) (c : List Variable),
      findInCache name (updateCacheList name value t c) = some ⟨name, t, value⟩) ∧
    (∀ (name value : String) (t : VarType) (c : List Variable),
      cacheWF c → cacheWF (updateCacheList name value t c)) ∧
    (∀ (st : ClientState) (n : String) (i : Int) (r : Response),
      cacheWF st.cache → cacheWF (virtualWriteInt n i r st).2.1.cache) ∧
    (∀ (st : ClientState) (n : String) (q : Rat) (r : Response),
      cacheWF st.cache → cacheWF (virtualWriteFloat n q r st).2.1.cache) ∧
    (∀ (st : ClientState) (n : String) (b : Bool) (r : Response),
      cacheWF st.cache → cacheWF (virtualWriteBool n b r st).2.1.cache) ∧
    (∀ (st : ClientState) (n v : String) (r : Response),
      cacheWF st.cache → cacheWF (virtualWriteString n v r st).2.1.cache) ∧
    (∀ (st : ClientState) (p : PullResponse),
      cacheWF st.cache → cacheWF (syncNow p st).2.1.cache) ∧
    (∀ (st : ClientState) (now : Nat) (hb : Response) (p : PullResponse),
      cacheWF st.cache → cacheWF (loop now hb p st).1.cache) :=
  ⟨fun name value t c => findInCache_updateCacheList name value t c,
   fun name value t c => cacheWF_updateCacheList name value t c,
   fun st n i r => cacheWF_virtualWriteInt st n i r,
   fun st n q r => cacheWF_virtualWriteFloat st n q r,
   fun st n b r => cacheWF_virtualWriteBool st n b r,
   fun st n v r => cacheWF_virtualWriteString st n v r,
   fun st p => cacheWF_syncNow st p,
   fun st now hb p => cacheWF_loop st now hb p⟩

/-- C9 witness: overwriting the existing `"t"` entry of `st0` with a new
type and value is atomic and keeps the invariant. -/
theorem C9_witness :
    findInCache "t" (updateCacheList "t" "21" VarType.INT_TYPE st0.cache) =
      some ⟨"t", VarType.INT_TYPE, "21"⟩ ∧
    cacheWF (updateCacheList "t" "21" VarType.INT_TYPE st0.cache) :=
  ⟨C9_cache_invariant.1 "t" "21" VarType.INT_TYPE st0.cache,
   C9_cache_invariant.2.1 "t" "21" VarType.INT_TYPE st0.cache
     (by simp [st0, cacheWF])⟩

/-- C10 counterexample: a float handler registered for `"x"` receives
positive infinity — not 0.0 — when the dispatched value text is the
digit-free (non-numeric) `"inf"`: the dispatch passes `value.toFloat()`,
i.e. `strtod`, whose infinity production matches.  This refutes "a Float
handler receives 0.0 [for non-numeric text]"; the dispatch itself is
still not skipped. -/
theorem C10_counterexample :
    processUpdate "x" "inf" VarType.FLOAT_TYPE demoFloatCbs =
      [CbEvent.floatCall 7 (FloatVal.inf false)] ∧
    (∀ c ∈ ("inf" : String).data, c.isDigit = false) := by
  exact ⟨rfl, by decide⟩

/-- C10 (amended): whenever the slot for the incoming type is registered
on an entry for the dispatched name, the handler is invoked — for every
value text, with no well-formedness requirement — receiving the
best-effort conversion: `value.toInt()` for integers (0 when the text has
no digits), `value.toFloat()` for floats (0.0 for digit-free text unless
it matches `strtod`'s infinity/NaN productions, which dispatch the signed
special value instead), the `true`/`1` test for booleans (false for any
other text), and the raw text for strings. -/
theorem C10_dispatch_conversion (cbs : List CallbackEntry) (name value : String)
    (e : CallbackEntry) (he : e ∈ cbs) (hn : e.name = name) :
    (∀ f, e.intCb = some f →
      CbEvent.intCall f (arduinoToInt value) ∈
        processUpdate name value VarType.INT_TYPE cbs) ∧
    (∀ f, e.floatCb = some f →
      CbEvent.floatCall f (arduinoToFloat value) ∈
        processUpdate name value VarType.FLOAT_TYPE cbs) ∧
    (∀ f, e.boolCb = some f →
      CbEvent.boolCall f (arduinoToBool value) ∈
        processUpdate name value VarType.BOOLEAN_TYPE cbs) ∧
    (∀ f, e.stringCb = some f →
      CbEvent.stringCall f value ∈
        processUpdate name value VarType.STRING_TYPE cbs) ∧
    ((∀ c ∈ value.data, c.isDigit = false) →
      arduinoToInt value = 0 ∧
      (strtodSpecial value = false → arduinoToFloat value = FloatVal.finite 0)) ∧
    (strtodInf value = true → arduinoToFloat value = FloatVal.inf (strtodSign value)) ∧
    (lowerString value ≠ "true" → value ≠ "1" → arduinoToBool value = false) := by
  refine ⟨?_, ?_, ?_, ?_, ?_, ?_, ?_⟩
  · intro f hf
    exact dispatch_mem name value e cbs he hn _ _ (by simp [dispatchEntry, hf])
  · intro f hf
    exact dispatch_mem name value e cbs he hn _ _ (by simp [dispatchEntry, hf])
  · intro f hf
    exact dispatch_mem name value e cbs he hn _ _ (by simp [dispatchEntry, hf])
  · intro f hf
    exact dispatch_mem name value e cbs he hn _ _ (by simp [dispatchEntry, hf])
  · intro hnd
    exact ⟨arduinoToInt_no_digit value hnd,
      fun hsp => arduinoToFloat_no_digit value hnd hsp⟩
  · intro hi
    exact arduinoToFloat_inf value hi
  · intro h1 h2
    rw [arduinoToBool, equalsIgnoreCase]
    have ht : lowerString "true" = "true" := rfl
    rw [ht]
    simp [h1, h2]

/-- C10 witness: an integer handler for `"x"` is invoked with 0 when the
dispatched value text `"abc"` is non-numeric — the dispatch is not
skipped. -/
theorem C10_witness :
    CbEvent.intCall 5 (arduinoToInt "abc") ∈
      processUpdate "x" "abc" VarType.INT_TYPE demoCbs10 ∧
    arduinoToInt "abc" = 0 ∧ arduinoToFloat "abc" = FloatVal.finite 0 :=
  have h := C10_dispatch_conversion demoCbs10 "x" "abc"
    ⟨"x", VarType.INT_TYPE, some 5, none, none, none⟩ (by decide) rfl
  have h2 := h.2.2.2.2.1 (by decide)
  ⟨h.1 5 rfl, h2.1, h2.2 (by decide)⟩

end IOT
